import Mathlib

/-!
Verification of the workflow orchestration engine of the `autobots`
repository (`src/workflowmanager.py`, `src/datamodel.py`) against its
natural-language specification.

Python strings are embedded as `List Char` (or Lean `String`, whose data is a
`List Char`), Python `Optional` values as `Option`, raised exceptions as
`Except PyErr`, and the mutable per-run accumulators of the manager classes
(`agent_history`, the built agents, the initiated chats) as an explicit
record `RunState` threaded through the functions that mutate them.
External collaborators (the embedded autogen agent library, the model
client) are modelled from the spec at their interface boundary; every such
definition is marked `Modelled from the spec:` in its doc comment.
-/

/-! ## Python string primitives -/

/-- Characters stripped by Python `str.rstrip()` (ASCII whitespace scope:
space, tab, newline, carriage return, vertical tab, form feed). -/
def isPySpace (c : Char) : Bool :=
  c = ' ' || c = '\t' || c = '\n' || c = '\r' || c = Char.ofNat 11 || c = Char.ofNat 12

/-- Python `s.rstrip()`: drop trailing whitespace. -/
def pyRstrip (s : List Char) : List Char :=
  (s.reverse.dropWhile isPySpace).reverse

/-- Python `s[-n:]`: the trailing window of at most `n` characters
(the whole string when it is shorter than `n`). -/
def takeLast (n : Nat) (s : List Char) : List Char :=
  s.drop (s.length - n)

/-- Boolean test that `needle` is a prefix of `hay`. -/
def startsWithL : List Char → List Char → Bool
  | [], _ => true
  | _ :: _, [] => false
  | a :: as, b :: bs => a = b && startsWithL as bs

/-- Boolean test for Python `needle in hay` (substring containment). -/
def containsSubL (needle : List Char) : List Char → Bool
  | [] => startsWithL needle []
  | c :: t => startsWithL needle (c :: t) || containsSubL needle t

/-- Specification-level statement that `needle` occurs contiguously in `hay`. -/
def SubstringOf (needle hay : List Char) : Prop :=
  ∃ pre post, hay = pre ++ needle ++ post

/-- Specification-level statement that `t` is a suffix of `l`. -/
def SuffixOf (t l : List Char) : Prop :=
  ∃ pre, l = pre ++ t

theorem startsWithL_iff (n h : List Char) :
    startsWithL n h = true ↔ ∃ r, h = n ++ r := by
  induction n generalizing h with
  | nil => simp [startsWithL]
  | cons a as ih =>
    cases h with
    | nil =>
      simp [startsWithL]
    | cons b bs =>
      simp only [startsWithL, Bool.and_eq_true, decide_eq_true_eq, ih]
      constructor
      · rintro ⟨rfl, r, rfl⟩; exact ⟨r, rfl⟩
      · rintro ⟨r, hr⟩
        cases hr
        exact ⟨rfl, r, rfl⟩

theorem containsSubL_iff (n h : List Char) :
    containsSubL n h = true ↔ SubstringOf n h := by
  induction h with
  | nil =>
    simp only [containsSubL, startsWithL_iff, SubstringOf]
    constructor
    · rintro ⟨r, hr⟩
      exact ⟨[], r, by simpa using hr⟩
    · rintro ⟨pre, post, hp⟩
      have h1 : pre = [] ∧ n ++ post = [] := by
        constructor
        · cases pre with
          | nil => rfl
          | cons x xs => simp at hp
        · cases pre with
          | nil => simpa using hp.symm
          | cons x xs => simp at hp
      rcases h1 with ⟨_, h2⟩
      exact ⟨post, h2.symm⟩
  | cons c t ih =>
    simp only [containsSubL, Bool.or_eq_true, startsWithL_iff, ih, SubstringOf]
    constructor
    · rintro (⟨r, hr⟩ | ⟨pre, post, hp⟩)
      · exact ⟨[], r, by simpa using hr⟩
      · exact ⟨c :: pre, post, by simp [hp]⟩
    · rintro ⟨pre, post, hp⟩
      cases pre with
      | nil =>
        left
        exact ⟨post, by simpa using hp⟩
      | cons x xs =>
        right
        simp only [List.cons_append] at hp
        cases hp
        exact ⟨xs, post, rfl⟩

theorem suffixOf_iff_rev (t l : List Char) :
    SuffixOf t l ↔ startsWithL t.reverse l.reverse = true := by
  rw [startsWithL_iff]
  constructor
  · rintro ⟨pre, rfl⟩
    exact ⟨pre.reverse, by simp⟩
  · rintro ⟨r, hr⟩
    refine ⟨r.reverse, ?_⟩
    have := congrArg List.reverse hr
    simpa using this

theorem suffixOf_takeLast {t l : List Char} (hs : SuffixOf t l)
    (hk : t.length ≤ 20) : SuffixOf t (takeLast 20 l) := by
  rcases hs with ⟨pre, rfl⟩
  unfold takeLast
  by_cases hlen : (pre ++ t).length ≤ 20
  · refine ⟨pre, ?_⟩
    have h0 : pre.length + t.length - 20 = 0 := by
      simp only [List.length_append] at hlen
      omega
    simp [h0]
  · rw [List.drop_append_eq_append_drop]
    refine ⟨pre.drop ((pre ++ t).length - 20), ?_⟩
    have h0 : pre.length + t.length - 20 - pre.length = 0 := by omega
    simp [h0]

theorem substringOf_of_suffixOf {t l : List Char} (h : SuffixOf t l) :
    SubstringOf t l := by
  rcases h with ⟨pre, rfl⟩
  exact ⟨pre, [], by simp⟩

theorem substringOf_append_left {a m : List Char} (x : List Char)
    (h : SubstringOf a m) : SubstringOf a (x ++ m) := by
  rcases h with ⟨pre, post, rfl⟩
  exact ⟨x ++ pre, post, by simp⟩

theorem substringOf_append_right {a m : List Char} (y : List Char)
    (h : SubstringOf a m) : SubstringOf a (m ++ y) := by
  rcases h with ⟨pre, post, rfl⟩
  exact ⟨pre, post ++ y, by simp⟩

/-! ## Data model

Embeds the run-time data the claims are about: message dictionaries, the
transcript (`agent_history` of the manager classes), and the per-run mutable
state of `AutoWorkflowManager`. -/

/-- Python exceptions raised by the embedded code. -/
inductive PyErr where
  | valueError (msg : String)
  | attributeError (msg : String)
deriving DecidableEq, Repr

/-- A message dictionary `{"role": ..., "content": ...}`. -/
structure MsgD where
  role : String
  content : String
deriving DecidableEq, Repr

/-- A Python message argument: either already a dict or a plain string
(`Union[Dict, str]` in the source). -/
inductive PyMsg where
  | dict (m : MsgD)
  | str (s : String)
deriving DecidableEq, Repr

/-- The normalization performed at the top of
`AutoWorkflowManager.process_message`:
`message if isinstance(message, dict) else {"content": message, "role": "user"}`. -/
def normalizeMsg : PyMsg → MsgD
  | PyMsg.dict m => m
  | PyMsg.str s => { role := "user", content := s }

/-- A `Message` of `datamodel.py` restricted to the fields the engine reads
(`role` and `content`). -/
structure Message where
  role : String
  content : String
deriving DecidableEq, Repr

/-- The `message_payload` dictionary appended to `agent_history` by
`process_message` (the spec's `TranscriptEntry`).  The wall-clock
`timestamp` field is omitted from the embedding (real time), as is the
constant `message_type` field (always `"agent_message"`). -/
structure TranscriptEntry where
  recipient : String
  sender : String
  message : MsgD
  sender_type : String
  connection_id : Option String
deriving DecidableEq, Repr

/-- Modelled from the spec: one invocation of the underlying (autogen)
participant's `receive` entry point, recorded so that "the wrapped agent
still processes the message" is observable in the embedding.  Captures the
arguments of spec section 6's participant capability
`receive(message, from, requestReply, silent)`. -/
structure Delivery where
  toName : String
  fromName : String
  message : MsgD
  request_reply : Option Bool
  silent : Bool
deriving DecidableEq, Repr

/-- A record of one `sender.initiate_chat(receiver, message, clear_history)`
call made by `AutoWorkflowManager._run_workflow`. -/
structure ChatInit where
  senderName : String
  receiverName : String
  message : String
  clear_history : Bool
deriving DecidableEq, Repr

/-- A built runtime participant.  `kind` records which wrapper class `load`
produced: `"groupchat"` for `ExtendedGroupChatManager`, `"agent"` for
`ExtendedConversableAgent`; the wrapper passes exactly this string as the
`sender_type` argument of `process_message` in its `receive` override. -/
structure Participant where
  name : String
  kind : String
deriving DecidableEq, Repr

/-- The mutable state of one `AutoWorkflowManager` run: the transcript
accumulator `agent_history`, plus observation logs for the external effects
(deliveries to wrapped agents, initiated chats, builds, replay
invocations) and the manager's `connection_id`. -/
structure RunState where
  agent_history : List TranscriptEntry := []
  delivered : List Delivery := []
  chats : List ChatInit := []
  replayRuns : Nat := 0
  builds : List String := []
  connId : Option String := none
deriving DecidableEq, Repr

/-- The empty initial state of a fresh manager (`self.agent_history = []`). -/
def emptyRunState : RunState := {}

/-! ## Message interception (`process_message` and the `Extended*` wrappers) -/

/-- Python truthiness of an `Optional[bool]` value: only `True` is truthy
(`None` and `False` are falsy). -/
def pyTruthy : Option Bool → Bool
  | some true => true
  | _ => false

/-- Embeds `AutoWorkflowManager.process_message` (workflowmanager.py lines
183-229).  The payload is appended to `agent_history` exactly when
`request_reply is not False or sender_type == "groupchat"`; the optional
socket broadcast is an external effect with no engine-visible state and is
not modelled. -/
def process_message (st : RunState) (senderName recipientName : String)
    (message : PyMsg) (request_reply : Option Bool) (sender_type : String) :
    RunState :=
  let payload : TranscriptEntry :=
    { recipient := recipientName
      sender := senderName
      message := normalizeMsg message
      sender_type := sender_type
      connection_id := st.connId }
  if request_reply ≠ some false || sender_type = "groupchat" then
    { st with agent_history := st.agent_history ++ [payload] }
  else
    st

/-- Embeds `ExtendedConversableAgent.receive` and
`ExtendedGroupChatManager.receive` (workflowmanager.py lines 781-811): the
hook fires with `sender_type` equal to the receiving wrapper's own kind
("agent" or "groupchat"), then `super().receive(...)` runs unconditionally;
the underlying delivery is recorded in `delivered`
(modelled from the spec, section 6 participant capability). -/
def extReceive (st : RunState) (recvr sender : Participant) (message : PyMsg)
    (request_reply : Option Bool) (silent : Bool) : RunState :=
  let st := process_message st sender.name recvr.name message request_reply recvr.kind
  { st with
      delivered := st.delivered ++
        [{ toName := recvr.name
           fromName := sender.name
           message := normalizeMsg message
           request_reply := request_reply
           silent := silent }] }

/-- Modelled from the spec: the participant capability
`send(message, to, requestReply, silent)` of section 6 delivers the message
to the peer's `receive` entry point with the same arguments (the autogen
library implementing this is embedded third-party code outside `src`). -/
def sendMsg (st : RunState) (fromP toP : Participant) (message : PyMsg)
    (request_reply : Option Bool) (silent : Bool) : RunState :=
  extReceive st toP fromP message request_reply silent

/-- One iteration of the loop of `AutoWorkflowManager._populate_history`:
a "user" message goes `sender.send(..., receiver)`, an "assistant" message
goes `receiver.send(..., sender)`, both with
`request_reply=False, silent=True`; any other role is skipped. -/
def replayStep (sender receiver : Participant) (st : RunState) (msg : Message) :
    RunState :=
  if msg.role = "user" then
    sendMsg st sender receiver (PyMsg.str msg.content) (some false) true
  else if msg.role = "assistant" then
    sendMsg st receiver sender (PyMsg.str msg.content) (some false) true
  else
    st

/-- Embeds `AutoWorkflowManager._populate_history` (workflowmanager.py lines
231-254).  `replayRuns` counts the invocations of the method itself. -/
def populate_history (st : RunState) (sender receiver : Participant)
    (history : List Message) : RunState :=
  history.foldl (replayStep sender receiver)
    { st with replayRuns := st.replayRuns + 1 }

/-- The delivery that replaying one historical message produces (derived
description used to state the replay claims). -/
def replayDelivery (sender receiver : Participant) (msg : Message) :
    Option Delivery :=
  if msg.role = "user" then
    some { toName := receiver.name, fromName := sender.name
           message := { role := "user", content := msg.content }
           request_reply := some false, silent := true }
  else if msg.role = "assistant" then
    some { toName := sender.name, fromName := receiver.name
           message := { role := "user", content := msg.content }
           request_reply := some false, silent := true }
  else
    none

/-! ## Config sanitization (`sanitize_agent`) -/

/-- The default termination lambda installed by `sanitize_agent`
(workflowmanager.py lines 262-264):
`lambda x: "TERMINATE" in x.get("content", "").rstrip()[-20:]`.
`content?` models `x.get("content", ...)`: `none` when the message dict has
no `content` key, in which case the default `""` is used. -/
def default_is_termination_msg (content? : Option String) : Bool :=
  containsSubL "TERMINATE".toList (takeLast 20 (pyRstrip (content?.getD "").toList))

/-- The assignment
`agent.config["is_termination_msg"] = agent.config["is_termination_msg"] or (lambda ...)`:
a configured (truthy) predicate is kept, an unset (`None`, falsy) one is
replaced by the default lambda. -/
def installedTermination (configured : Option (Option String → Bool)) :
    Option String → Bool :=
  match configured with
  | some f => f
  | none => default_is_termination_msg

/-- One entry of `llm_config["config_list"]`, abstracted to the only field
the credential check reads: whether the dict has an `"api_key"` key. -/
structure LLMEntry where
  hasApiKey : Bool
deriving DecidableEq, Repr

/-- Attribute access `agent.config.name`.  `agent.config` is a plain
`Dict[str, Any]` (field `config` of `Agent` in datamodel.py, guarded by a
validator that requires a dict), and Python dicts do not expose their keys
as attributes, so this access raises `AttributeError` regardless of the
dict's contents. -/
def dictAttrName : Except PyErr String :=
  Except.error (PyErr.attributeError "dict object has no attribute name")

/-- The two textual halves of the `error_message` f-string of
`sanitize_agent` around the interpolated `{agent.config.name}`. -/
def credErrPrefix : String :=
  "api_key is not present in llm_config or OPENAI_API_KEY env variable for agent ** "

/-- Tail of the credential error message after the interpolated name. -/
def credErrSuffix : String :=
  "**. Update your workflow to provide an api_key to use the LLM."

/-- Embeds the credential loop of `sanitize_agent` (workflowmanager.py lines
277-287) for an agent whose `llm_config` is not `False`; the argument is the
`config_list` and `envHasKey` models `"OPENAI_API_KEY" in os.environ`.
When an entry lacks an `api_key` and no fallback credential exists, the
source first evaluates the f-string building `error_message`, which
evaluates `agent.config.name` (see `dictAttrName`) before the
`raise ValueError(error_message)` line can run. -/
def credentialCheck (envHasKey : Bool) : List LLMEntry → Except PyErr Unit
  | [] => Except.ok ()
  | llm :: rest =>
    if !llm.hasApiKey && !envHasKey then
      match dictAttrName with
      | Except.error e => Except.error e
      | Except.ok n =>
          Except.error (PyErr.valueError (credErrPrefix ++ n ++ credErrSuffix))
    else credentialCheck envHasKey rest

/-- Classifier: is the outcome a raised `ValueError`? -/
def isValueErrorResult : Except PyErr Unit → Bool
  | Except.error (PyErr.valueError _) => true
  | _ => false

/-! ## Output summarization (`_generate_output`) -/

/-- Embeds `_generate_output` (workflowmanager.py lines 356-400 and, with the
same branch structure, lines 629-672 of `SequentialWorkflowManager`).
`output` starts as `""`; the `"last"` branch takes
`agent_history[-1]["message"]["content"]` when the transcript is non-empty;
the `"llm"` branch delegates to the external `summarize_chat_history` call,
modelled by the `llmSummary` argument; the `"none"` branch and the implicit
fall-through both leave `output = ""`.  The function is total: no branch
raises for an unrecognized method. -/
def generate_output (agent_history : List TranscriptEntry)
    (summary_method : String) (llmSummary : String) : String :=
  if summary_method = "last" then
    match agent_history.getLast? with
    | some entry => entry.message.content
    | none => ""
  else if summary_method = "llm" then
    llmSummary
  else if summary_method = "none" then
    ""
  else
    ""

/-- The `content` of the `Message` returned by `run`:
`self._generate_output(message, self.workflow.get("summary_method", "last"))`,
with the method defaulting to `"last"` when the workflow dict has no
`summary_method` key. -/
def runResultContent (summary_method? : Option String)
    (agent_history : List TranscriptEntry) (llmSummary : String) : String :=
  generate_output agent_history (summary_method?.getD "last") llmSummary

/-! ## Autonomous driver (`AutoWorkflowManager._run_workflow`) -/

/-- The agent specification carried by one node of the workflow's `agents`
list (`agent.get("agent")`), restricted to the fields the driver loop
reads: its `name` and its `type` string. -/
structure AgentSpecD where
  name : String
  kind : String
deriving DecidableEq, Repr

/-- One element of `workflow["agents"]`: the agent spec plus
`link.agent_type` (`"sender"` or `"receiver"`). -/
structure AgentNode where
  spec : AgentSpecD
  link : String
deriving DecidableEq, Repr

/-- The workflow dictionary fields read by `_run_workflow` and `run`. -/
structure WorkflowD where
  agents : List AgentNode
  summary_method : Option String := none
deriving DecidableEq, Repr

/-- The literal of the `raise ValueError(...)` executed when the sender loop
leaves `self.sender is None` (workflowmanager.py lines 117-120). -/
def senderMissingMsg : String :=
  "Sender and receiver agents are not defined in the workflow configuration."

/-- The literal of the `raise ValueError(...)` executed after the receiver
loop when `self.receiver is None` (workflowmanager.py lines 134-137). -/
def receiverMissingMsg : String :=
  "Sender and receiver agents are not defined in the workflow configuration."

/-- Modelled from the spec: `sender.initiate_chat(receiver, message,
clear_history)` starts the live turn-taking exchange (spec section 4.4
LIVE); the exchange itself runs inside the embedded third-party library, so
the embedding records the initiation and abstracts from the exchanged
turns. -/
def initiateChat (st : RunState) (sender receiver : Participant)
    (message : String) (clear_history : Bool) : RunState :=
  { st with
      chats := st.chats ++
        [{ senderName := sender.name, receiverName := receiver.name
           message := message, clear_history := clear_history }] }

/-- The sender loop of `_run_workflow` (lines 113-115): every
`"sender"`-linked node is loaded and assigned to `self.sender`, the last
assignment winning; `build` abstracts `self.load` (a successful build — the
builder's own failure modes are treated by `credentialCheck`), and each
build is logged in `builds`. -/
def loadSenders (build : AgentSpecD → Participant) :
    List AgentNode → Option Participant → RunState →
    Option Participant × RunState
  | [], acc, st => (acc, st)
  | node :: rest, acc, st =>
    if node.link = "sender" then
      loadSenders build rest (some (build node.spec))
        { st with builds := st.builds ++ [node.spec.name] }
    else
      loadSenders build rest acc st

/-- The receiver loop of `_run_workflow` (lines 122-132): a
`"receiver"`-linked node (re)builds `self.receiver`; then, whenever
`self.receiver` is set — on this and on every later iteration, whatever the
node's role — the history is replayed (when non-empty) and
`sender.initiate_chat` runs.  The source's two statements
(`if receiver-linked: rebuild` then `if self.receiver: replay and chat`)
are flattened into the equivalent case split: a receiver-linked node always
leaves `self.receiver` truthy, so it replays and chats with the just-built
receiver; any other node replays and chats exactly when a receiver was
already set. -/
def receiverLoop (build : AgentSpecD → Participant) (sender : Participant)
    (message : String) (history : List Message) (clear_history : Bool) :
    List AgentNode → Option Participant → RunState →
    Option Participant × RunState
  | [], recv, st => (recv, st)
  | node :: rest, recv, st =>
    if node.link = "receiver" then
      receiverLoop build sender message history clear_history rest
        (some (build node.spec))
        (initiateChat
          (if history ≠ [] then
            populate_history { st with builds := st.builds ++ [node.spec.name] }
              sender (build node.spec) history
          else { st with builds := st.builds ++ [node.spec.name] })
          sender (build node.spec) message clear_history)
    else
      match recv with
      | none =>
        receiverLoop build sender message history clear_history rest none st
      | some r =>
        receiverLoop build sender message history clear_history rest (some r)
          (initiateChat
            (if history ≠ [] then populate_history st sender r history else st)
            sender r message clear_history)

/-- Embeds `AutoWorkflowManager._run_workflow` (workflowmanager.py lines
98-137): load all sender-linked nodes; raise if none was found; run the
receiver loop; raise if it never set a receiver.  The pair returned is the
final mutable state together with either normal completion or the raised
exception. -/
def auto_run_workflow (build : AgentSpecD → Participant) (w : WorkflowD)
    (message : String) (history : List Message) (clear_history : Bool) :
    RunState × Except PyErr Unit :=
  let (sender?, st) := loadSenders build w.agents none emptyRunState
  match sender? with
  | none => (st, Except.error (PyErr.valueError senderMissingMsg))
  | some sender =>
    let (recv?, st) :=
      receiverLoop build sender message history clear_history w.agents none st
    match recv? with
    | none => (st, Except.error (PyErr.valueError receiverMissingMsg))
    | some _ => (st, Except.ok ())

/-- The participant `load` produces for a spec, reduced to what the receive
wrappers observe: `"groupchat"` specs become the `ExtendedGroupChatManager`
wrapper, `"assistant"`/`"userproxy"` specs the `ExtendedConversableAgent`
wrapper.  Used to instantiate the abstract `build` parameter in concrete
runs. -/
def buildKindOnly (s : AgentSpecD) : Participant :=
  { name := s.name, kind := if s.kind = "groupchat" then "groupchat" else "agent" }

/-! ## Sequential composer (`SequentialWorkflowManager._run_workflow`)

The stage prompt interpolates `str(sequential_history)`, Python's textual
rendering of a list of strings, so the embedding includes a model of
CPython's `repr` for strings (ASCII scope: printable characters are kept,
the backslash and the chosen quote are backslash-escaped, newline, carriage
return and tab become two-character escapes, and the remaining control
characters become hexadecimal escapes). -/

/-- The apostrophe character (CPython's preferred string quote). -/
def quoteChar : Char := Char.ofNat 39

/-- Lowercase hexadecimal digit. -/
def hexDig (n : Nat) : Char :=
  if n < 10 then Char.ofNat (48 + n) else Char.ofNat (87 + n)

/-- CPython quote choice for `repr` of a string: an apostrophe unless the
string contains an apostrophe but no double quote. -/
def pyReprQuote (s : List Char) : Char :=
  if quoteChar ∈ s ∧ '"' ∉ s then '"' else quoteChar

/-- Rendering of one character inside a `repr`-quoted string literal. -/
def pyReprChar (q c : Char) : List Char :=
  if c = '\\' then ['\\', '\\']
  else if c = q then ['\\', q]
  else if c = '\n' then ['\\', 'n']
  else if c = '\r' then ['\\', 'r']
  else if c = '\t' then ['\\', 't']
  else if c.toNat < 32 || c.toNat = 127 then
    ['\\', 'x', hexDig (c.toNat / 16), hexDig (c.toNat % 16)]
  else [c]

/-- CPython `repr` of a string (ASCII scope). -/
def pyReprStr (s : List Char) : List Char :=
  let q := pyReprQuote s
  q :: (s.flatMap (pyReprChar q)) ++ [q]

/-- Python `", ".join(pieces)`. -/
def joinCommaSep : List (List Char) → List Char
  | [] => []
  | [z] => z
  | z :: zs => z ++ (", ".toList ++ joinCommaSep zs)

/-- Python `str(xs)` for a list of strings:
`"[" + ", ".join(repr(x) for x in xs) + "]"`. -/
def pyStrListOfStr (xs : List (List Char)) : List Char :=
  '[' :: (joinCommaSep (xs.map pyReprStr) ++ [']'])

/-- The part of the stage-prompt f-string template before the interpolated
`{str(sequential_history)}` (workflowmanager.py lines 610-616). -/
def seqTemplateBefore : List Char :=
  ("\n            Your primary task is as follows:\n            Provide information related to the context.\n            \n            Context for addressing your task is below:\n            =======\n            ").toList

/-- The part of the stage-prompt template after the interpolation
(workflowmanager.py lines 616-619). -/
def seqTemplateAfter : List Char :=
  ("\n            =======\n            Now address your task:\n            ").toList

/-- The `task_prompt` synthesized for stage `i` given the accumulated
`sequential_history`: the caller's message verbatim for stage 0, the
context template otherwise (workflowmanager.py lines 609-622). -/
def stageInput (message : List Char) (i : Nat)
    (sequential_history : List (List Char)) : List Char :=
  if 0 < i then
    seqTemplateBefore ++ pyStrListOfStr sequential_history ++ seqTemplateAfter
  else
    message

/-- The accumulators of `SequentialWorkflowManager._run_workflow`:
`sequential_history` (one `result.content` per finished stage) and the
composer's own `agent_history`. -/
structure SeqState where
  sequential_history : List (List Char) := []
  agent_history : List TranscriptEntry := []
deriving DecidableEq, Repr

/-- One iteration of the stage loop (workflowmanager.py lines 578-627):
synthesize the stage prompt, delegate to a fresh `AutoWorkflowManager` run
— abstracted as `stageRun i prompt = (result.content,
result.metadata["messages"])`, the sub-run being a live exchange — then
append `result.content` to `sequential_history` and extend `agent_history`
with the sub-run's messages. -/
def seqStage (stageRun : Nat → List Char → List Char × List TranscriptEntry)
    (message : List Char) (i : Nat) (st : SeqState) : SeqState :=
  let prompt := stageInput message i st.sequential_history
  let result := stageRun i prompt
  { sequential_history := st.sequential_history ++ [result.1]
    agent_history := st.agent_history ++ result.2 }

/-- The stage loop from stage `i`, running `k` stages. -/
def seqRunFrom (stageRun : Nat → List Char → List Char × List TranscriptEntry)
    (message : List Char) : Nat → Nat → SeqState → SeqState
  | _, 0, st => st
  | i, k + 1, st => seqRunFrom stageRun message (i + 1) k (seqStage stageRun message i st)

/-- Embeds `SequentialWorkflowManager._run_workflow` for a workflow whose
`agents` list has `n` stages: stages `0 .. n-1` run in declaration order
from empty accumulators.  The final `run` result's `metadata["messages"]`
is the final `agent_history`. -/
def seq_run_workflow (stageRun : Nat → List Char → List Char × List TranscriptEntry)
    (message : List Char) (n : Nat) : SeqState :=
  seqRunFrom stageRun message 0 n {}

/-- The contents accumulated after the first `i` stages (derived
description: stage `k`'s content is what `stageRun` returns on the prompt
synthesized from the previous contents). -/
def seqContents (stageRun : Nat → List Char → List Char × List TranscriptEntry)
    (message : List Char) : Nat → List (List Char)
  | 0 => []
  | k + 1 =>
    let prev := seqContents stageRun message k
    prev ++ [(stageRun k (stageInput message k prev)).1]

/-- The prompt stage `i` receives (derived description). -/
def seqPrompt (stageRun : Nat → List Char → List Char × List TranscriptEntry)
    (message : List Char) (i : Nat) : List Char :=
  stageInput message i (seqContents stageRun message i)

/-- The sub-run transcript stage `i` contributes (derived description). -/
def seqStageMsgs (stageRun : Nat → List Char → List Char × List TranscriptEntry)
    (message : List Char) (i : Nat) : List TranscriptEntry :=
  (stageRun i (seqPrompt stageRun message i)).2

/-- A character that CPython `repr` renders as itself under an apostrophe
quote: printable ASCII other than the backslash and the apostrophe. -/
def plainReprChar (c : Char) : Bool :=
  32 ≤ c.toNat && c.toNat ≤ 126 && c ≠ '\\' && c ≠ quoteChar

/-! ## Entry-point dispatch (`WorkflowManager.__new__`, `Workflow.run_workflow`) -/

/-- Which manager implementation a dispatch selects. -/
inductive ManagerChoice where
  | autoManager
  | seqManager
deriving DecidableEq, Repr

/-- Embeds `WorkflowManager.__new__` (workflowmanager.py lines 717-770) for
an already-parsed workflow dict: `workflow.get("type")` (absent key gives
`None`) is compared against `WorkFlowType.autonomous.value` =
`"autonomous"` and `WorkFlowType.sequential.value` = `"sequential"`; when
neither matches, the method body falls through without a `return`, so the
construction evaluates to Python `None` — modelled as `none`. -/
def workflow_manager_new (wtype? : Option String) : Option ManagerChoice :=
  if wtype? = some "autonomous" then some ManagerChoice.autoManager
  else if wtype? = some "sequential" then some ManagerChoice.seqManager
  else none

/-- The validated `WorkFlowType` enum of datamodel.py (a `Workflow` model
cannot hold any other value: its `type` validator constructs this enum and
raises on anything else). -/
inductive WFType where
  | autonomous
  | sequential
deriving DecidableEq, Repr

/-- Embeds the dispatch of `Workflow.run_workflow` (datamodel.py lines
240-269); the `else: raise ValueError(...)` arm is unreachable because the
validated field admits only the two enum values. -/
def workflow_run_dispatch : WFType → ManagerChoice
  | WFType.autonomous => ManagerChoice.autoManager
  | WFType.sequential => ManagerChoice.seqManager

/-! ## Helper lemmas: effect of the interception hook on the run state -/

theorem extReceive_agent_history (st : RunState) (recvr sender : Participant)
    (m : PyMsg) (rr : Option Bool) (sil : Bool) :
    (extReceive st recvr sender m rr sil).agent_history
      = if rr ≠ some false || recvr.kind = "groupchat" then
          st.agent_history ++
            [{ recipient := recvr.name, sender := sender.name
               message := normalizeMsg m, sender_type := recvr.kind
               connection_id := st.connId }]
        else st.agent_history := by
  unfold extReceive process_message
  split <;> rfl

theorem extReceive_delivered (st : RunState) (recvr sender : Participant)
    (m : PyMsg) (rr : Option Bool) (sil : Bool) :
    (extReceive st recvr sender m rr sil).delivered
      = st.delivered ++
        [{ toName := recvr.name, fromName := sender.name
           message := normalizeMsg m, request_reply := rr, silent := sil }] := by
  unfold extReceive process_message
  split <;> rfl

theorem extReceive_chats (st : RunState) (recvr sender : Participant)
    (m : PyMsg) (rr : Option Bool) (sil : Bool) :
    (extReceive st recvr sender m rr sil).chats = st.chats := by
  unfold extReceive process_message
  split <;> rfl

theorem extReceive_replayRuns (st : RunState) (recvr sender : Participant)
    (m : PyMsg) (rr : Option Bool) (sil : Bool) :
    (extReceive st recvr sender m rr sil).replayRuns = st.replayRuns := by
  unfold extReceive process_message
  split <;> rfl

theorem extReceive_builds (st : RunState) (recvr sender : Participant)
    (m : PyMsg) (rr : Option Bool) (sil : Bool) :
    (extReceive st recvr sender m rr sil).builds = st.builds := by
  unfold extReceive process_message
  split <;> rfl

theorem extReceive_connId (st : RunState) (recvr sender : Participant)
    (m : PyMsg) (rr : Option Bool) (sil : Bool) :
    (extReceive st recvr sender m rr sil).connId = st.connId := by
  unfold extReceive process_message
  split <;> rfl

theorem replayStep_chats (sender receiver : Participant) (st : RunState)
    (msg : Message) :
    (replayStep sender receiver st msg).chats = st.chats := by
  unfold replayStep sendMsg
  split
  · exact extReceive_chats ..
  · split
    · exact extReceive_chats ..
    · rfl

theorem replayStep_replayRuns (sender receiver : Participant) (st : RunState)
    (msg : Message) :
    (replayStep sender receiver st msg).replayRuns = st.replayRuns := by
  unfold replayStep sendMsg
  split
  · exact extReceive_replayRuns ..
  · split
    · exact extReceive_replayRuns ..
    · rfl

theorem replay_foldl_chats (sender receiver : Participant) :
    ∀ (history : List Message) (st : RunState),
      (history.foldl (replayStep sender receiver) st).chats = st.chats := by
  intro history
  induction history with
  | nil => intro st; rfl
  | cons m t ih =>
    intro st
    rw [List.foldl_cons, ih, replayStep_chats]

theorem replay_foldl_replayRuns (sender receiver : Participant) :
    ∀ (history : List Message) (st : RunState),
      (history.foldl (replayStep sender receiver) st).replayRuns = st.replayRuns := by
  intro history
  induction history with
  | nil => intro st; rfl
  | cons m t ih =>
    intro st
    rw [List.foldl_cons, ih, replayStep_replayRuns]

theorem populate_history_chats (st : RunState) (sender receiver : Participant)
    (history : List Message) :
    (populate_history st sender receiver history).chats = st.chats := by
  unfold populate_history
  rw [replay_foldl_chats]

theorem populate_history_replayRuns (st : RunState)
    (sender receiver : Participant) (history : List Message) :
    (populate_history st sender receiver history).replayRuns
      = st.replayRuns + 1 := by
  unfold populate_history
  rw [replay_foldl_replayRuns]

theorem replayStep_quiet (sender receiver : Participant)
    (hr : receiver.kind ≠ "groupchat") (hs : sender.kind ≠ "groupchat")
    (st : RunState) (msg : Message) :
    (replayStep sender receiver st msg).agent_history = st.agent_history
    ∧ (replayStep sender receiver st msg).delivered
        = st.delivered ++ (replayDelivery sender receiver msg).toList := by
  unfold replayStep sendMsg replayDelivery
  by_cases hu : msg.role = "user"
  · rw [if_pos hu, if_pos hu, extReceive_agent_history, extReceive_delivered]
    simp [hr, normalizeMsg]
  · rw [if_neg hu, if_neg hu]
    by_cases ha : msg.role = "assistant"
    · rw [if_pos ha, if_pos ha, extReceive_agent_history, extReceive_delivered]
      simp [hs, normalizeMsg]
    · rw [if_neg ha, if_neg ha]
      simp

theorem replay_foldl_quiet (sender receiver : Participant)
    (hr : receiver.kind ≠ "groupchat") (hs : sender.kind ≠ "groupchat") :
    ∀ (history : List Message) (st : RunState),
      (history.foldl (replayStep sender receiver) st).agent_history
          = st.agent_history
      ∧ (history.foldl (replayStep sender receiver) st).delivered
          = st.delivered ++ history.filterMap (replayDelivery sender receiver) := by
  intro history
  induction history with
  | nil => intro st; simp
  | cons m t ih =>
    intro st
    rw [List.foldl_cons]
    rcases ih (replayStep sender receiver st m) with ⟨ih1, ih2⟩
    rcases replayStep_quiet sender receiver hr hs st m with ⟨h1, h2⟩
    constructor
    · rw [ih1, h1]
    · rw [ih2, h2, List.filterMap_cons]
      cases hmd : replayDelivery sender receiver m with
      | none => simp
      | some d => simp

/-! ## Claim C2: transcript-append policy of the interception hook -/

/-- Claim C2 (amended): a transcript entry is appended for a message passing
through the interception hook if and only if the `request_reply` argument is
not the literal `False` (so `None`, though falsy, is appended) OR the
receiving wrapper is the group-chat manager (the hook's `sender_type`
argument is supplied by the receiving wrapper and names its own kind, not
the sender's); the wrapped agent processes the message unconditionally
either way. -/
theorem transcript_append_policy (st : RunState) (recvr sender : Participant)
    (m : PyMsg) (rr : Option Bool) (sil : Bool) :
    ((extReceive st recvr sender m rr sil).agent_history
        = st.agent_history ++
          [{ recipient := recvr.name, sender := sender.name
             message := normalizeMsg m, sender_type := recvr.kind
             connection_id := st.connId }]
      ↔ (rr ≠ some false ∨ recvr.kind = "groupchat"))
    ∧ (extReceive st recvr sender m rr sil).delivered
        = st.delivered ++
          [{ toName := recvr.name, fromName := sender.name
             message := normalizeMsg m, request_reply := rr, silent := sil }] := by
  refine ⟨?_, extReceive_delivered ..⟩
  rw [extReceive_agent_history]
  by_cases hc : rr ≠ some false ∨ recvr.kind = "groupchat"
  · have hb : (rr ≠ some false || recvr.kind = "groupchat") = true := by
      rcases hc with h | h <;> simp [h]
    rw [if_pos hb]
    simp [hc]
  · push_neg at hc
    obtain ⟨h1, h2⟩ := hc
    have hb : (rr ≠ some false || recvr.kind = "groupchat") = false := by
      simp [h1, h2]
    rw [if_neg (by simp only [hb]; exact Bool.false_ne_true)]
    constructor
    · intro h
      exfalso
      have hlen := congrArg List.length h
      simp at hlen
    · rintro (h | h)
      · exact absurd h1 h
      · exact absurd h h2

/-- Claim C2 (counterexample): a message with `request_reply = None` — a
falsy value — arriving at a plain (non-group) agent wrapper is appended to
the transcript, contradicting the claimed "truthy `request_reply` or group
sender" policy. -/
theorem transcript_append_none_request_reply :
    pyTruthy none = false
    ∧ decide ((Participant.mk "a" "agent").kind = "groupchat") = false
    ∧ (extReceive emptyRunState (Participant.mk "a" "agent")
        (Participant.mk "u" "agent") (PyMsg.str "hello") none false
        ).agent_history.length = 1 := by
  refine ⟨rfl, by decide, rfl⟩

/-! ## Claim C4: the history-replay phase -/

/-- Claim C4 (amended): the replay phase delivers each historical message in
original order with `request_reply=False` and `silent=True`, from sender to
receiver for a "user" role and from receiver to sender for an "assistant"
role (other roles are skipped); it appends zero transcript entries provided
neither endpoint is a group-chat manager — a replayed message received by a
group-chat manager is appended (see the counterexample). -/
theorem replay_phase_order_and_silence (st : RunState)
    (sender receiver : Participant) (history : List Message)
    (hr : receiver.kind ≠ "groupchat") (hs : sender.kind ≠ "groupchat") :
    (populate_history st sender receiver history).agent_history
        = st.agent_history
    ∧ (populate_history st sender receiver history).delivered
        = st.delivered ++ history.filterMap (replayDelivery sender receiver) := by
  unfold populate_history
  rcases replay_foldl_quiet sender receiver hr hs history
      { st with replayRuns := st.replayRuns + 1 } with ⟨h1, h2⟩
  exact ⟨h1, h2⟩

/-- Witness for `replay_phase_order_and_silence` at a concrete two-message
history between two plain agents. -/
theorem replay_phase_order_and_silence_witness :
    (populate_history emptyRunState (Participant.mk "u" "agent")
        (Participant.mk "a" "agent")
        [Message.mk "user" "hi", Message.mk "assistant" "yo"]).agent_history
      = emptyRunState.agent_history
    ∧ (populate_history emptyRunState (Participant.mk "u" "agent")
        (Participant.mk "a" "agent")
        [Message.mk "user" "hi", Message.mk "assistant" "yo"]).delivered
      = emptyRunState.delivered ++
          [Message.mk "user" "hi", Message.mk "assistant" "yo"].filterMap
            (replayDelivery (Participant.mk "u" "agent")
              (Participant.mk "a" "agent")) :=
  replay_phase_order_and_silence emptyRunState (Participant.mk "u" "agent")
    (Participant.mk "a" "agent")
    [Message.mk "user" "hi", Message.mk "assistant" "yo"]
    (by decide) (by decide)

/-- Claim C4 (counterexample): replaying a single "user" message into a
workflow whose receiver is a group participant (built from a `"groupchat"`
spec) appends one transcript entry, so the replay phase is not
transcript-silent for every valid autonomous workflow. -/
theorem replay_into_group_receiver_appends :
    buildKindOnly (AgentSpecD.mk "g" "groupchat") = Participant.mk "g" "groupchat"
    ∧ (populate_history emptyRunState (Participant.mk "u" "agent")
        (Participant.mk "g" "groupchat")
        [Message.mk "user" "hi"]).agent_history.length = 1 := by
  refine ⟨by decide, rfl⟩

/-! ## Claim C3: missing credential during sanitization -/

/-- Claim C3 (code bug): with no fallback credential and a model-config
entry that lacks an `api_key`, the sanitization path does fail before any
network call, but with an `AttributeError` — evaluating `agent.config.name`
on a plain dict while formatting the intended error message — rather than
with the missing-credential `ValueError` naming the agent that the same
lines construct. -/
theorem credential_check_hits_attribute_error :
    credentialCheck false [LLMEntry.mk false]
      = Except.error (PyErr.attributeError "dict object has no attribute name")
    ∧ isValueErrorResult (credentialCheck false [LLMEntry.mk false]) = false
    ∧ credentialCheck true [LLMEntry.mk false] = Except.ok ()
    ∧ credentialCheck false [LLMEntry.mk true] = Except.ok () := by
  refine ⟨rfl, rfl, rfl, rfl⟩

/-! ## Claim C5: the "last" summary method -/

/-- Claim C5 (confirmed): with summary method `"last"`, the run result's
content is exactly the message content of the most recent transcript entry
when the transcript is non-empty, and the empty string when it is empty. -/
theorem summary_method_last (agent_history : List TranscriptEntry)
    (llmSummary : String) (e : TranscriptEntry) :
    (agent_history.getLast? = some e →
      runResultContent (some "last") agent_history llmSummary
        = e.message.content)
    ∧ (agent_history = [] →
      runResultContent (some "last") agent_history llmSummary = "") := by
  constructor
  · intro h
    unfold runResultContent generate_output
    simp [h]
  · intro h
    subst h
    rfl

/-- Witness for `summary_method_last` on a two-entry transcript and on the
empty transcript. -/
theorem summary_method_last_witness :
    runResultContent (some "last")
        [{ recipient := "a", sender := "u"
           message := { role := "user", content := "hi" }
           sender_type := "agent", connection_id := none },
         { recipient := "u", sender := "a"
           message := { role := "assistant", content := "final answer" }
           sender_type := "agent", connection_id := none }] "ignored"
      = "final answer"
    ∧ runResultContent (some "last") [] "ignored" = "" := by
  constructor
  · exact (summary_method_last
      [{ recipient := "a", sender := "u"
         message := { role := "user", content := "hi" }
         sender_type := "agent", connection_id := none },
       { recipient := "u", sender := "a"
         message := { role := "assistant", content := "final answer" }
         sender_type := "agent", connection_id := none }] "ignored"
      { recipient := "u", sender := "a"
        message := { role := "assistant", content := "final answer" }
        sender_type := "agent", connection_id := none }).1 rfl
  · exact (summary_method_last [] "ignored"
      { recipient := "u", sender := "a"
        message := { role := "assistant", content := "x" }
        sender_type := "agent", connection_id := none }).2 rfl

/-! ## Claim C6: the "none" and unrecognized summary methods -/

/-- Claim C6 (confirmed): with summary method `"none"`, and with any method
other than `"last"` and `"llm"`, the result content is the empty string
regardless of the transcript, and no branch raises (the embedding of
`_generate_output` is a total function into `String`). -/
theorem summary_method_none_or_unrecognized
    (agent_history : List TranscriptEntry) (llmSummary : String)
    (method : String) :
    runResultContent (some "none") agent_history llmSummary = ""
    ∧ (method ≠ "last" → method ≠ "llm" →
        runResultContent (some method) agent_history llmSummary = "") := by
  constructor
  · rfl
  · intro h1 h2
    unfold runResultContent generate_output
    rw [Option.getD_some, if_neg h1, if_neg h2]
    by_cases h3 : method = "none"
    · rw [if_pos h3]
    · rw [if_neg h3]

/-- Witness for `summary_method_none_or_unrecognized` on a non-empty
transcript with the unrecognized method `"banana"`. -/
theorem summary_method_none_or_unrecognized_witness :
    runResultContent (some "none")
        [{ recipient := "a", sender := "u"
           message := { role := "user", content := "hi" }
           sender_type := "agent", connection_id := none }] "llmtext" = ""
    ∧ runResultContent (some "banana")
        [{ recipient := "a", sender := "u"
           message := { role := "user", content := "hi" }
           sender_type := "agent", connection_id := none }] "llmtext" = "" := by
  constructor
  · exact (summary_method_none_or_unrecognized
      [{ recipient := "a", sender := "u"
         message := { role := "user", content := "hi" }
         sender_type := "agent", connection_id := none }] "llmtext" "banana").1
  · exact (summary_method_none_or_unrecognized
      [{ recipient := "a", sender := "u"
         message := { role := "user", content := "hi" }
         sender_type := "agent", connection_id := none }] "llmtext" "banana").2
      (by decide) (by decide)

/-! ## Claim C8: the default termination predicate -/

/-- Claim-side Boolean rendering of "the content, trailing whitespace
stripped, ends with the literal token TERMINATE" (agrees with `SuffixOf`
by `suffixOf_iff_rev`). -/
def endsWithTerminate (content : String) : Bool :=
  startsWithL "TERMINATE".toList.reverse (pyRstrip content.toList).reverse

/-- Claim C8 (amended): when the termination predicate is unset,
sanitization installs a default that holds exactly when `TERMINATE` occurs
as a substring of the 20-character trailing window of the content with
trailing whitespace stripped; ending with `TERMINATE` implies the
predicate, but the predicate also accepts a `TERMINATE` that is merely
inside the window (see the counterexample). -/
theorem default_termination_window (content? : Option String) :
    (installedTermination none content? = true
      ↔ SubstringOf "TERMINATE".toList
          (takeLast 20 (pyRstrip (content?.getD "").toList)))
    ∧ (SuffixOf "TERMINATE".toList (pyRstrip (content?.getD "").toList)
        → installedTermination none content? = true) := by
  have hiff : installedTermination none content? = true
      ↔ SubstringOf "TERMINATE".toList
          (takeLast 20 (pyRstrip (content?.getD "").toList)) := by
    unfold installedTermination default_is_termination_msg
    exact containsSubL_iff ..
  refine ⟨hiff, fun h => ?_⟩
  rw [hiff]
  exact substringOf_of_suffixOf (suffixOf_takeLast h (by decide))

/-- Witness for `default_termination_window`: a content that genuinely ends
with `TERMINATE` after stripping trailing whitespace satisfies the
installed default predicate. -/
theorem default_termination_window_witness :
    installedTermination none (some "all done TERMINATE  ") = true :=
  (default_termination_window (some "all done TERMINATE  ")).2
    ⟨"all done ".toList, by decide⟩

/-- Claim C8 (counterexample): the installed default predicate holds on
`"TERMINATE now"` although that content does not end with `TERMINATE` — the
source tests substring membership in the trailing window, not an
ends-with condition. -/
theorem default_termination_not_ends_with :
    installedTermination none (some "TERMINATE now") = true
    ∧ endsWithTerminate "TERMINATE now" = false := by
  refine ⟨by decide, by decide⟩

/-! ## Claim C1: missing sender and missing receiver in the autonomous driver -/

theorem loadSenders_no_sender (build : AgentSpecD → Participant) :
    ∀ (nodes : List AgentNode) (acc : Option Participant) (st : RunState),
      (∀ node ∈ nodes, node.link ≠ "sender") →
      loadSenders build nodes acc st = (acc, st) := by
  intro nodes
  induction nodes with
  | nil => intro acc st _; rfl
  | cons node rest ih =>
    intro acc st h
    unfold loadSenders
    rw [if_neg (h node (List.mem_cons_self ..))]
    exact ih acc st (fun n hn => h n (List.mem_cons_of_mem _ hn))

/-- Claim C1 (amended): an autonomous workflow with zero sender-linked
nodes raises a `ValueError` configuration error — never a null result —
with the check performed once up front, before any agent is built and
before any exchange starts; the no-receiver check does happen after the
receiver loop, but the two raises carry the identical exception type and
message (see the counterexample), so the two failures are not distinct as
errors. -/
theorem missing_sender_config_error (build : AgentSpecD → Participant)
    (w : WorkflowD) (message : String) (history : List Message)
    (clear_history : Bool)
    (hns : ∀ node ∈ w.agents, node.link ≠ "sender") :
    (auto_run_workflow build w message history clear_history).2
        = Except.error (PyErr.valueError senderMissingMsg)
    ∧ (auto_run_workflow build w message history clear_history).1.builds = []
    ∧ (auto_run_workflow build w message history clear_history).1.chats = [] := by
  unfold auto_run_workflow
  rw [loadSenders_no_sender build w.agents none emptyRunState hns]
  exact ⟨rfl, rfl, rfl⟩

/-- A concrete workflow with a receiver-linked node and no sender-linked
node. -/
def wNoSender : WorkflowD :=
  { agents := [{ spec := { name := "a", kind := "assistant" }, link := "receiver" }] }

/-- A concrete workflow with a sender-linked node and no receiver-linked
node. -/
def wNoReceiver : WorkflowD :=
  { agents := [{ spec := { name := "u", kind := "userproxy" }, link := "sender" }] }

/-- Witness for `missing_sender_config_error` at the concrete sender-less
workflow. -/
theorem missing_sender_config_error_witness :
    (auto_run_workflow buildKindOnly wNoSender "hi" [] false).2
        = Except.error (PyErr.valueError senderMissingMsg)
    ∧ (auto_run_workflow buildKindOnly wNoSender "hi" [] false).1.builds = []
    ∧ (auto_run_workflow buildKindOnly wNoSender "hi" [] false).1.chats = [] :=
  missing_sender_config_error buildKindOnly wNoSender "hi" [] false (by decide)

/-- Claim C1 (counterexample to distinctness): the error raised for a
missing sender and the error raised after the receiver loop for a missing
receiver are the same `ValueError` with the identical message, so the two
configuration failures are not distinct errors. -/
theorem sender_receiver_errors_identical :
    (auto_run_workflow buildKindOnly wNoSender "hi" [] false).2
        = Except.error (PyErr.valueError senderMissingMsg)
    ∧ (auto_run_workflow buildKindOnly wNoReceiver "hi" [] false).2
        = Except.error (PyErr.valueError receiverMissingMsg)
    ∧ senderMissingMsg = receiverMissingMsg := by
  refine ⟨rfl, rfl, rfl⟩

/-! ## Claim C9: entry-point dispatch -/

/-- Claim C9 (amended): the entry point dispatches on the workflow type —
`"autonomous"` selects the autonomous driver and `"sequential"` the
sequential composer (on both the `WorkflowManager` factory and the
validated `Workflow.run_workflow` paths) — but for a type outside the two
(or a missing type) the `WorkflowManager` factory falls through and the
construction yields Python `None`, not a configuration error. -/
theorem entry_point_dispatch :
    workflow_manager_new (some "autonomous") = some ManagerChoice.autoManager
    ∧ workflow_manager_new (some "sequential") = some ManagerChoice.seqManager
    ∧ workflow_run_dispatch WFType.autonomous = ManagerChoice.autoManager
    ∧ workflow_run_dispatch WFType.sequential = ManagerChoice.seqManager
    ∧ (∀ wtype? : Option String, wtype? ≠ some "autonomous" →
        wtype? ≠ some "sequential" → workflow_manager_new wtype? = none) := by
  refine ⟨rfl, rfl, rfl, rfl, ?_⟩
  intro t h1 h2
  unfold workflow_manager_new
  rw [if_neg h1, if_neg h2]

/-- Witness for `entry_point_dispatch` at a workflow dict with no `type`
key. -/
theorem entry_point_dispatch_witness :
    workflow_manager_new none = none :=
  entry_point_dispatch.2.2.2.2 none (by decide) (by decide)

/-- Claim C9 (counterexample): for the unknown type `"parallel"` the
factory returns `None` — a null result — contradicting "never a null/None
value". -/
theorem unknown_type_yields_none :
    workflow_manager_new (some "parallel") = none := by
  decide

/-! ## Claim C10: the receiver loop initiates one exchange per iteration
once a receiver exists -/

theorem initiateChat_chats (st : RunState) (sender receiver : Participant)
    (message : String) (ch : Bool) :
    (initiateChat st sender receiver message ch).chats
      = st.chats ++
        [{ senderName := sender.name, receiverName := receiver.name
           message := message, clear_history := ch }] := rfl

theorem initiateChat_replayRuns (st : RunState)
    (sender receiver : Participant) (message : String) (ch : Bool) :
    (initiateChat st sender receiver message ch).replayRuns
      = st.replayRuns := rfl

theorem loadSenders_chats (build : AgentSpecD → Participant) :
    ∀ (nodes : List AgentNode) (acc : Option Participant) (st : RunState),
      (loadSenders build nodes acc st).2.chats = st.chats
      ∧ (loadSenders build nodes acc st).2.replayRuns = st.replayRuns := by
  intro nodes
  induction nodes with
  | nil => intro acc st; exact ⟨rfl, rfl⟩
  | cons node rest ih =>
    intro acc st
    unfold loadSenders
    by_cases h : node.link = "sender"
    · rw [if_pos h]
      exact ih ..
    · rw [if_neg h]
      exact ih ..

theorem loadSenders_isSome_acc (build : AgentSpecD → Participant) :
    ∀ (nodes : List AgentNode) (p : Participant) (st : RunState),
      (loadSenders build nodes (some p) st).1.isSome = true := by
  intro nodes
  induction nodes with
  | nil => intro p st; rfl
  | cons node rest ih =>
    intro p st
    unfold loadSenders
    by_cases h : node.link = "sender"
    · rw [if_pos h]
      exact ih ..
    · rw [if_neg h]
      exact ih ..

theorem loadSenders_isSome_exists (build : AgentSpecD → Participant) :
    ∀ (nodes : List AgentNode) (acc : Option Participant) (st : RunState),
      (∃ n ∈ nodes, n.link = "sender") →
      (loadSenders build nodes acc st).1.isSome = true := by
  intro nodes
  induction nodes with
  | nil =>
    intro acc st h
    simp at h
  | cons node rest ih =>
    intro acc st h
    unfold loadSenders
    by_cases hn : node.link = "sender"
    · rw [if_pos hn]
      exact loadSenders_isSome_acc ..
    · rw [if_neg hn]
      rcases h with ⟨n, hmem, hlink⟩
      rcases List.mem_cons.mp hmem with rfl | hmem'
      · exact absurd hlink hn
      · exact ih acc st ⟨n, hmem', hlink⟩

theorem receiverLoop_skip (build : AgentSpecD → Participant)
    (sender : Participant) (message : String) (history : List Message)
    (ch : Bool) :
    ∀ (pre rest : List AgentNode) (st : RunState),
      (∀ n ∈ pre, n.link ≠ "receiver") →
      receiverLoop build sender message history ch (pre ++ rest) none st
        = receiverLoop build sender message history ch rest none st := by
  intro pre
  induction pre with
  | nil => intro rest st _; rfl
  | cons node pre' ih =>
    intro rest st h
    have h1 : receiverLoop build sender message history ch
        ((node :: pre') ++ rest) none st
        = receiverLoop build sender message history ch (pre' ++ rest) none st := by
      rw [List.cons_append]
      conv_lhs => unfold receiverLoop
      rw [if_neg (h node (List.mem_cons_self ..))]
    rw [h1]
    exact ih rest st (fun n hn => h n (List.mem_cons_of_mem _ hn))

theorem receiverLoop_some (build : AgentSpecD → Participant)
    (sender : Participant) (message : String) (history : List Message)
    (ch : Bool) :
    ∀ (rest : List AgentNode) (r : Participant) (st : RunState),
      ((receiverLoop build sender message history ch rest (some r) st).1).isSome
          = true
      ∧ (receiverLoop build sender message history ch rest (some r) st
          ).2.chats.length = st.chats.length + rest.length
      ∧ (receiverLoop build sender message history ch rest (some r) st
          ).2.replayRuns
          = st.replayRuns + (if history = [] then 0 else rest.length) := by
  intro rest
  induction rest with
  | nil =>
    intro r st
    refine ⟨rfl, rfl, ?_⟩
    show st.replayRuns = st.replayRuns + (if history = [] then 0 else 0)
    by_cases hh : history = [] <;> simp [hh]
  | cons node rest' ih =>
    intro r st
    by_cases hn : node.link = "receiver"
    · have h1 : receiverLoop build sender message history ch
          (node :: rest') (some r) st
          = receiverLoop build sender message history ch rest'
              (some (build node.spec))
              (initiateChat
                (if history ≠ [] then
                  populate_history
                    { st with builds := st.builds ++ [node.spec.name] }
                    sender (build node.spec) history
                else { st with builds := st.builds ++ [node.spec.name] })
                sender (build node.spec) message ch) := by
        conv_lhs => unfold receiverLoop
        rw [if_pos hn]
      rw [h1]
      have step := ih (build node.spec)
        (initiateChat
          (if history ≠ [] then
            populate_history { st with builds := st.builds ++ [node.spec.name] }
              sender (build node.spec) history
          else { st with builds := st.builds ++ [node.spec.name] })
          sender (build node.spec) message ch)
      have hcx : (initiateChat
          (if history ≠ [] then
            populate_history { st with builds := st.builds ++ [node.spec.name] }
              sender (build node.spec) history
          else { st with builds := st.builds ++ [node.spec.name] })
          sender (build node.spec) message ch).chats.length
          = st.chats.length + 1 := by
        rw [initiateChat_chats]
        by_cases hh : history = []
        · rw [if_neg (by simpa using hh)]
          simp
        · rw [if_pos hh, populate_history_chats]
          simp
      have hrx : (initiateChat
          (if history ≠ [] then
            populate_history { st with builds := st.builds ++ [node.spec.name] }
              sender (build node.spec) history
          else { st with builds := st.builds ++ [node.spec.name] })
          sender (build node.spec) message ch).replayRuns
          = st.replayRuns + (if history = [] then 0 else 1) := by
        rw [initiateChat_replayRuns]
        by_cases hh : history = []
        · rw [if_neg (by simpa using hh), if_pos hh]
          rfl
        · rw [if_pos hh, populate_history_replayRuns, if_neg hh]
      refine ⟨step.1, ?_, ?_⟩
      · rw [step.2.1, hcx]
        simp only [List.length_cons]
        omega
      · rw [step.2.2, hrx]
        by_cases hh : history = [] <;> simp [hh] <;> omega
    · have h1 : receiverLoop build sender message history ch
          (node :: rest') (some r) st
          = receiverLoop build sender message history ch rest' (some r)
              (initiateChat
                (if history ≠ [] then populate_history st sender r history
                 else st)
                sender r message ch) := by
        conv_lhs => unfold receiverLoop
        rw [if_neg hn]
      rw [h1]
      have step := ih r
        (initiateChat
          (if history ≠ [] then populate_history st sender r history else st)
          sender r message ch)
      have hcx : (initiateChat
          (if history ≠ [] then populate_history st sender r history else st)
          sender r message ch).chats.length = st.chats.length + 1 := by
        rw [initiateChat_chats]
        by_cases hh : history = []
        · rw [if_neg (by simpa using hh)]
          simp
        · rw [if_pos hh, populate_history_chats]
          simp
      have hrx : (initiateChat
          (if history ≠ [] then populate_history st sender r history else st)
          sender r message ch).replayRuns
          = st.replayRuns + (if history = [] then 0 else 1) := by
        rw [initiateChat_replayRuns]
        by_cases hh : history = []
        · rw [if_neg (by simpa using hh), if_pos hh]
          rfl
        · rw [if_pos hh, populate_history_replayRuns, if_neg hh]
      refine ⟨step.1, ?_, ?_⟩
      · rw [step.2.1, hcx]
        simp only [List.length_cons]
        omega
      · rw [step.2.2, hrx]
        by_cases hh : history = [] <;> simp [hh] <;> omega

/-- Claim C10 (confirmed): once the first receiver-linked node of an
autonomous workflow has been built, every subsequent iteration of the
receiver loop — whatever that node's role — initiates the sender's
`initiate_chat` (preceded by a history replay when history is supplied), so
a workflow with `k` nodes after its first receiver-linked node performs
exactly `k + 1` live exchange initiations, not one per receiver-linked
node. -/
theorem receiver_loop_initiates_per_iteration (build : AgentSpecD → Participant)
    (w : WorkflowD) (message : String) (history : List Message)
    (clear_history : Bool) (pre post : List AgentNode) (node : AgentNode)
    (hagents : w.agents = pre ++ node :: post)
    (hpre : ∀ n ∈ pre, n.link ≠ "receiver")
    (hnode : node.link = "receiver")
    (hsender : ∃ n ∈ w.agents, n.link = "sender") :
    (auto_run_workflow build w message history clear_history).2 = Except.ok ()
    ∧ (auto_run_workflow build w message history clear_history).1.chats.length
        = post.length + 1
    ∧ (history ≠ [] →
        (auto_run_workflow build w message history clear_history).1.replayRuns
          = post.length + 1)
    ∧ (history = [] →
        (auto_run_workflow build w message history clear_history).1.replayRuns
          = 0) := by
  have hsender2 : ∃ n ∈ pre ++ node :: post, n.link = "sender" := by
    rw [← hagents]; exact hsender
  obtain ⟨p, hp⟩ := Option.isSome_iff_exists.mp
    (loadSenders_isSome_exists build (pre ++ node :: post) none emptyRunState
      hsender2)
  set st2 := (loadSenders build (pre ++ node :: post) none emptyRunState).2
    with hst2
  have hls : loadSenders build (pre ++ node :: post) none emptyRunState
      = (some p, st2) := by
    rw [hst2, ← hp]
  set stX := initiateChat
    (if history ≠ [] then
      populate_history { st2 with builds := st2.builds ++ [node.spec.name] }
        p (build node.spec) history
    else { st2 with builds := st2.builds ++ [node.spec.name] })
    p (build node.spec) message clear_history with hstX
  have hone : receiverLoop build p message history clear_history
      (node :: post) none st2
      = receiverLoop build p message history clear_history post
          (some (build node.spec)) stX := by
    conv_lhs => unfold receiverLoop
    rw [if_pos hnode]
  have hload := loadSenders_chats build (pre ++ node :: post) none emptyRunState
  rw [← hst2] at hload
  have hx1 : stX.chats.length = 1 := by
    rw [hstX, initiateChat_chats]
    by_cases hh : history = []
    · rw [if_neg (by simpa using hh)]
      simp [hload.1, emptyRunState]
    · rw [if_pos hh, populate_history_chats]
      simp [hload.1, emptyRunState]
  have hx2 : stX.replayRuns = if history = [] then 0 else 1 := by
    rw [hstX, initiateChat_replayRuns]
    by_cases hh : history = []
    · rw [if_neg (by simpa using hh), if_pos hh]
      simp [hload.2, emptyRunState]
    · rw [if_pos hh, populate_history_replayRuns, if_neg hh]
      simp [hload.2, emptyRunState]
  have step := receiverLoop_some build p message history clear_history post
    (build node.spec) stX
  obtain ⟨r', hr'⟩ := Option.isSome_iff_exists.mp step.1
  have hXeta : receiverLoop build p message history clear_history post
      (some (build node.spec)) stX
      = ((receiverLoop build p message history clear_history post
          (some (build node.spec)) stX).1,
        (receiverLoop build p message history clear_history post
          (some (build node.spec)) stX).2) := rfl
  have hrl : receiverLoop build p message history clear_history
      (pre ++ node :: post) none st2
      = (some r',
        (receiverLoop build p message history clear_history post
          (some (build node.spec)) stX).2) := by
    rw [receiverLoop_skip build p message history clear_history pre
      (node :: post) st2 hpre, hone, hXeta, hr']
  have hmain : auto_run_workflow build w message history clear_history
      = ((receiverLoop build p message history clear_history post
          (some (build node.spec)) stX).2, Except.ok ()) := by
    unfold auto_run_workflow
    rw [hagents, hls]
    dsimp only
    rw [hrl]
  rw [hmain]
  refine ⟨rfl, ?_, ?_, ?_⟩
  · show (receiverLoop build p message history clear_history post
        (some (build node.spec)) stX).2.chats.length = post.length + 1
    rw [step.2.1, hx1]
    omega
  · intro hh
    show (receiverLoop build p message history clear_history post
        (some (build node.spec)) stX).2.replayRuns = post.length + 1
    rw [step.2.2, hx2, if_neg hh, if_neg hh]
    omega
  · intro hh
    show (receiverLoop build p message history clear_history post
        (some (build node.spec)) stX).2.replayRuns = 0
    rw [step.2.2, hx2, if_pos hh, if_pos hh]

/-- A concrete three-node workflow: sender, then the first receiver, then a
second sender-linked node positioned after the receiver. -/
def wThreeNodes : WorkflowD :=
  { agents :=
      [{ spec := { name := "u", kind := "userproxy" }, link := "sender" },
       { spec := { name := "a", kind := "assistant" }, link := "receiver" },
       { spec := { name := "v", kind := "userproxy" }, link := "sender" }] }

/-- Witness for `receiver_loop_initiates_per_iteration`: in the three-node
workflow one node follows the first receiver-linked node, so two exchanges
are initiated and, with a one-message history, two replays run. -/
theorem receiver_loop_initiates_per_iteration_witness :
    (auto_run_workflow buildKindOnly wThreeNodes "hi"
        [Message.mk "user" "h1"] false).2 = Except.ok ()
    ∧ (auto_run_workflow buildKindOnly wThreeNodes "hi"
        [Message.mk "user" "h1"] false).1.chats.length = 2
    ∧ (auto_run_workflow buildKindOnly wThreeNodes "hi"
        [Message.mk "user" "h1"] false).1.replayRuns = 2 := by
  have main := receiver_loop_initiates_per_iteration buildKindOnly wThreeNodes
    "hi" [Message.mk "user" "h1"] false
    [{ spec := { name := "u", kind := "userproxy" }, link := "sender" }]
    [{ spec := { name := "v", kind := "userproxy" }, link := "sender" }]
    { spec := { name := "a", kind := "assistant" }, link := "receiver" }
    rfl (by decide) rfl (by decide)
  exact ⟨main.1, main.2.1, main.2.2.1 (by decide)⟩

/-! ## Claim C7: sequential composition -/

theorem substringOf_trans {a b c : List Char} (h1 : SubstringOf a b)
    (h2 : SubstringOf b c) : SubstringOf a c := by
  rcases h1 with ⟨p1, q1, rfl⟩
  rcases h2 with ⟨p2, q2, rfl⟩
  exact ⟨p2 ++ p1, q1 ++ q2, by simp⟩

theorem substringOf_joinCommaSep {z : List Char} :
    ∀ {zs : List (List Char)}, z ∈ zs → SubstringOf z (joinCommaSep zs) := by
  intro zs
  induction zs with
  | nil => intro h; simp at h
  | cons y ys ih =>
    intro h
    rcases List.mem_cons.mp h with rfl | hmem
    · cases ys with
      | nil => exact ⟨[], [], by simp [joinCommaSep]⟩
      | cons y2 ys2 =>
        exact ⟨[], ", ".toList ++ joinCommaSep (y2 :: ys2), by simp [joinCommaSep]⟩
    · cases ys with
      | nil => simp at hmem
      | cons y2 ys2 =>
        have hsub := ih hmem
        have : joinCommaSep (y :: y2 :: ys2)
            = (y ++ ", ".toList) ++ joinCommaSep (y2 :: ys2) := by
          simp [joinCommaSep]
        rw [this]
        exact substringOf_append_left _ hsub

theorem substringOf_pyStrListOfStr {c : List Char} {xs : List (List Char)}
    (h : c ∈ xs) : SubstringOf (pyReprStr c) (pyStrListOfStr xs) := by
  have hmem : pyReprStr c ∈ xs.map pyReprStr := List.mem_map_of_mem _ h
  have hsub := substringOf_joinCommaSep hmem
  have : pyStrListOfStr xs
      = ['['] ++ (joinCommaSep (xs.map pyReprStr) ++ [']']) := rfl
  rw [this]
  exact substringOf_append_left _ (substringOf_append_right _ hsub)

theorem pyReprQuote_plain {c : List Char}
    (h : ∀ ch ∈ c, plainReprChar ch = true) : pyReprQuote c = quoteChar := by
  unfold pyReprQuote
  rw [if_neg]
  rintro ⟨hin, _⟩
  have := h quoteChar hin
  simp [plainReprChar, quoteChar] at this

theorem pyReprChar_plain {ch : Char} (hc : plainReprChar ch = true) :
    pyReprChar quoteChar ch = [ch] := by
  simp only [plainReprChar, Bool.and_eq_true, decide_eq_true_eq,
    Nat.decLe, decide_eq_true_eq] at hc
  obtain ⟨⟨⟨h1, h2⟩, h3⟩, h4⟩ := hc
  unfold pyReprChar
  rw [if_neg h3, if_neg h4,
    if_neg (fun hn => absurd h1 (by subst hn; decide)),
    if_neg (fun hn => absurd h1 (by subst hn; decide)),
    if_neg (fun hn => absurd h1 (by subst hn; decide)),
    if_neg (by simp only [Bool.or_eq_true, decide_eq_true_eq]; omega)]

theorem flatMap_pyReprChar_plain :
    ∀ {c : List Char}, (∀ ch ∈ c, plainReprChar ch = true) →
      c.flatMap (pyReprChar quoteChar) = c := by
  intro c
  induction c with
  | nil => intro _; rfl
  | cons ch t ih =>
    intro h
    rw [List.flatMap_cons, pyReprChar_plain (h ch (List.mem_cons_self ..)),
      ih (fun x hx => h x (List.mem_cons_of_mem _ hx))]
    rfl

theorem pyReprStr_plain {c : List Char}
    (h : ∀ ch ∈ c, plainReprChar ch = true) :
    pyReprStr c = quoteChar :: (c ++ [quoteChar]) := by
  unfold pyReprStr
  rw [pyReprQuote_plain h]
  show quoteChar :: (c.flatMap (pyReprChar quoteChar) ++ [quoteChar])
      = quoteChar :: (c ++ [quoteChar])
  rw [flatMap_pyReprChar_plain h]

theorem substringOf_self_pyReprStr {c : List Char}
    (h : ∀ ch ∈ c, plainReprChar ch = true) :
    SubstringOf c (pyReprStr c) := by
  rw [pyReprStr_plain h]
  exact ⟨[quoteChar], [quoteChar], by simp⟩

theorem seqRunFrom_succ
    (stageRun : Nat → List Char → List Char × List TranscriptEntry)
    (message : List Char) :
    ∀ (k i : Nat) (st : SeqState),
      seqRunFrom stageRun message i (k + 1) st
        = seqStage stageRun message (i + k)
            (seqRunFrom stageRun message i k st) := by
  intro k
  induction k with
  | zero => intro i st; rfl
  | succ k ih =>
    intro i st
    have hdef : seqRunFrom stageRun message i (k + 1 + 1) st
        = seqRunFrom stageRun message (i + 1) (k + 1)
            (seqStage stageRun message i st) := rfl
    rw [hdef, ih (i + 1) (seqStage stageRun message i st),
      show i + 1 + k = i + (k + 1) from by omega]
    rfl

theorem seq_run_characterization
    (stageRun : Nat → List Char → List Char × List TranscriptEntry)
    (message : List Char) :
    ∀ n : Nat,
      (seq_run_workflow stageRun message n).sequential_history
          = seqContents stageRun message n
      ∧ (seq_run_workflow stageRun message n).agent_history
          = ((List.range n).map (seqStageMsgs stageRun message)).flatten := by
  intro n
  induction n with
  | zero => exact ⟨rfl, rfl⟩
  | succ n ih =>
    have hpeel : seq_run_workflow stageRun message (n + 1)
        = seqStage stageRun message n (seq_run_workflow stageRun message n) := by
      unfold seq_run_workflow
      rw [seqRunFrom_succ stageRun message n 0 {}, Nat.zero_add]
    rcases ih with ⟨ih1, ih2⟩
    constructor
    · rw [hpeel]
      show (seq_run_workflow stageRun message n).sequential_history
          ++ [(stageRun n (stageInput message n
                (seq_run_workflow stageRun message n).sequential_history)).1]
        = seqContents stageRun message (n + 1)
      rw [ih1]
      rfl
    · rw [hpeel]
      show (seq_run_workflow stageRun message n).agent_history
          ++ (stageRun n (stageInput message n
                (seq_run_workflow stageRun message n).sequential_history)).2
        = ((List.range (n + 1)).map (seqStageMsgs stageRun message)).flatten
      rw [ih1, ih2, List.range_succ, List.map_append, List.flatten_append]
      simp [seqStageMsgs, seqPrompt]

/-- Claim C7 (amended): for a sequential workflow of `n` stages the final
result's transcript is the concatenation, in stage order, of the stage
sub-runs' transcripts — so its length is the sum of the stage transcript
lengths; stage 0 receives the caller's message verbatim; and for every
stage `i > 0` the synthesized input embeds Python's textual rendering of
the list of prior stage outputs, so it contains each prior output's `repr`
form, and contains the literal output itself whenever the output has no
characters that the rendering escapes (a prior output with, e.g., a newline
appears escaped instead — see the counterexample). -/
theorem seq_composition_transcript_and_context
    (stageRun : Nat → List Char → List Char × List TranscriptEntry)
    (message : List Char) (n : Nat) :
    (seq_run_workflow stageRun message n).agent_history
        = ((List.range n).map (seqStageMsgs stageRun message)).flatten
    ∧ (seq_run_workflow stageRun message n).agent_history.length
        = ((List.range n).map
            (fun i => (seqStageMsgs stageRun message i).length)).sum
    ∧ (seq_run_workflow stageRun message n).sequential_history
        = seqContents stageRun message n
    ∧ seqPrompt stageRun message 0 = message
    ∧ (∀ i c, 0 < i → c ∈ seqContents stageRun message i →
        SubstringOf (pyReprStr c) (seqPrompt stageRun message i)
        ∧ ((∀ ch ∈ c, plainReprChar ch = true) →
            SubstringOf c (seqPrompt stageRun message i))) := by
  obtain ⟨h1, h2⟩ := seq_run_characterization stageRun message n
  refine ⟨h2, ?_, h1, rfl, ?_⟩
  · rw [h2, List.length_flatten, List.map_map]
    rfl
  · intro i c hi hmem
    have hprompt : seqPrompt stageRun message i
        = seqTemplateBefore ++ pyStrListOfStr (seqContents stageRun message i)
          ++ seqTemplateAfter := by
      unfold seqPrompt stageInput
      rw [if_pos hi]
    have hrepr := substringOf_pyStrListOfStr hmem
    constructor
    · rw [hprompt]
      exact substringOf_append_right _ (substringOf_append_left _ hrepr)
    · intro hplain
      rw [hprompt]
      exact substringOf_append_right _ (substringOf_append_left _
        (substringOf_trans (substringOf_self_pyReprStr hplain) hrepr))

/-- A concrete transcript entry for stage sub-runs used in the sequential
witnesses. -/
def sampleEntry : TranscriptEntry :=
  { recipient := "a", sender := "user_proxy"
    message := { role := "user", content := "hi" }
    sender_type := "agent", connection_id := none }

/-- A concrete stage-run behavior: every stage answers `"ok"` and
contributes one transcript entry. -/
def stageRunOk : Nat → List Char × List TranscriptEntry :=
  fun _ => ("ok".toList, [sampleEntry])

/-- Witness for `seq_composition_transcript_and_context` on a two-stage run
whose stages each contribute one transcript entry and answer `"ok"`. -/
theorem seq_composition_transcript_and_context_witness :
    (seq_run_workflow (fun i _ => stageRunOk i) "go".toList 2).agent_history.length
        = ((List.range 2).map
            (fun i => (seqStageMsgs (fun i _ => stageRunOk i) "go".toList i).length)).sum
    ∧ SubstringOf "ok".toList (seqPrompt (fun i _ => stageRunOk i) "go".toList 1) := by
  constructor
  · exact (seq_composition_transcript_and_context
      (fun i _ => stageRunOk i) "go".toList 2).2.1
  · exact ((seq_composition_transcript_and_context
      (fun i _ => stageRunOk i) "go".toList 2).2.2.2.2 1 "ok".toList
      (by decide) (by decide)).2 (by decide)

/-- The stage-run behavior of the sequential counterexample: stage 0's
result content contains a newline. -/
def stageRunNewline : Nat → List Char → List Char × List TranscriptEntry :=
  fun i _ => if i = 0 then ("a\nb".toList, []) else ("done".toList, [])

set_option maxRecDepth 4000 in
/-- Claim C7 (counterexample): when stage 0's output is `"a\nb"`, the input
synthesized for stage 1 does not contain that output literally — the
rendering `str(sequential_history)` escapes the newline to a
backslash-`n` — so "the synthesized stage input contains the literal
content of every prior stage's result content" fails. -/
theorem seq_stage_input_escapes_newline :
    seqContents stageRunNewline "task".toList 1 = ["a\nb".toList]
    ∧ containsSubL "a\nb".toList (seqPrompt stageRunNewline "task".toList 1)
        = false := by
  constructor
  · rfl
  · decide

/-- Witness for `transcript_append_policy`: a message with
`request_reply = True` to a plain agent is appended, and the underlying
delivery happens. -/
theorem transcript_append_policy_witness :
    (extReceive emptyRunState (Participant.mk "a" "agent")
        (Participant.mk "u" "agent") (PyMsg.str "m") (some true) false
        ).agent_history
      = emptyRunState.agent_history ++
        [{ recipient := "a", sender := "u"
           message := normalizeMsg (PyMsg.str "m"), sender_type := "agent"
           connection_id := emptyRunState.connId }]
    ∧ (extReceive emptyRunState (Participant.mk "a" "agent")
        (Participant.mk "u" "agent") (PyMsg.str "m") (some true) false
        ).delivered
      = emptyRunState.delivered ++
        [{ toName := "a", fromName := "u"
           message := normalizeMsg (PyMsg.str "m")
           request_reply := some true, silent := false }] :=
  ⟨(transcript_append_policy emptyRunState (Participant.mk "a" "agent")
      (Participant.mk "u" "agent") (PyMsg.str "m") (some true) false).1.mpr
      (Or.inl (by decide)),
   (transcript_append_policy emptyRunState (Participant.mk "a" "agent")
      (Participant.mk "u" "agent") (PyMsg.str "m") (some true) false).2⟩
